import Mathlib

/-!
# Online Medical System (`src/src/App.jsx`)

A shallow embedding of the state handlers of the `App` component
(`bookAppointment`, `updateAppointmentStatus`, `createPrescription`,
`updatePrescriptionStatus`), of the role guard `RequireRole`, and of the
per-role list filters of the dashboards, followed by the properties proved
about them.

JavaScript objects are finite lists of properties in insertion order; a
property read of a missing key gives `undefined`.  Calls of `Date.now()` and
`new Date().toISOString()` are inputs of the handler that makes them, and the
host's `String.prototype.toLowerCase` is an input of the filters that call it.
-/

namespace CSK

/-! ## Values and objects -/

/-- The values stored in the properties of the application's objects: text
from form fields, numbers (`Date.now()` ids, the seed id `1`), and
`undefined` for a property that is not there. -/
inductive Val where
  | undefined : Val
  | str (s : String) : Val
  | num (n : Int) : Val
  deriving DecidableEq, Repr

/-- An object: its own properties, in insertion order. -/
abbrev Obj := List (String × Val)

/-- Property read `o.k` (`undefined` when `o` has no own property `k`). -/
def Obj.getProp : Obj → String → Val
  | [], _ => Val.undefined
  | (k', v) :: rest, k => if k' = k then v else Obj.getProp rest k

/-- Property definition `o[k] = v` while an object literal is built: an
existing property keeps its position and takes the new value, a new one is
added at the end. -/
def Obj.setProp : Obj → String → Val → Obj
  | [], k, v => [(k, v)]
  | (k', v') :: rest, k, v =>
    if k' = k then (k, v) :: rest else (k', v') :: Obj.setProp rest k v

/-- Own property keys of an object, in order. -/
def Obj.keys (o : Obj) : List String := o.map Prod.fst

/-- Spread `...src` inside an object literal whose properties so far are
`target`: every own key of `src`, in order, is read from `src` and defined on
the literal. -/
def Obj.spread (target src : Obj) : Obj :=
  (Obj.keys src).foldl (fun acc k => Obj.setProp acc k (Obj.getProp src k)) target

/-- JavaScript truthiness (`ToBoolean`) of a value. -/
def Val.truthy : Val → Bool
  | Val.undefined => false
  | Val.str s => decide (s ≠ "")
  | Val.num n => decide (n ≠ 0)

/-- The operator `a || b`. -/
def Val.or (a b : Val) : Val := if a.truthy then a else b

/-- The operator `s || d` on two strings. -/
def strOr (s d : String) : String := if s = "" then d else s

/-! ## Application state (`App`, lines 13-46) -/

/-- The `user` state: `{ role, name }`, both strings. -/
structure User where
  role : String
  name : String
  deriving DecidableEq, Repr

/-- The four `useState` cells of `App`. -/
structure AppState where
  appointments : List Obj
  prescriptions : List Obj
  records : List Obj
  user : User
  deriving DecidableEq, Repr

/-- The seed record of `useState([...])` for `records`. -/
def seedRecord : Obj :=
  [("id", Val.num 1), ("patientName", Val.str "Rohit"), ("doctorName", Val.str "Dr. Mehta"),
   ("summary", Val.str "Follow-up for fever. Stable."),
   ("labReport", Val.str "CBC normal. CRP slightly elevated."),
   ("date", Val.str "2025-11-10")]

/-- State of `App` at first render. -/
def initialState : AppState :=
  { appointments := [], prescriptions := [], records := [seedRecord],
    user := { role := "", name := "" } }

/-- Handler `handleLogin(role, name)`: the state part (`setUser({ role, name })`). -/
def handleLogin (role name : String) (s : AppState) : AppState :=
  { s with user := { role := role, name := name } }

/-- Handler `handleLogout()`: the state part (`setUser({ role: "", name: "" })`). -/
def handleLogout (s : AppState) : AppState :=
  { s with user := { role := "", name := "" } }

/-! ## Handlers (`App`, lines 48-105) -/

/-- Handler `bookAppointment(data)`; `now` is the value of `Date.now()`. -/
def bookAppointment (now : Int) (data : Obj) (s : AppState) : AppState :=
  let newAppointment : Obj :=
    Obj.setProp (Obj.spread [("id", Val.num now)] data) "status" (Val.str "Pending")
  { s with appointments := s.appointments ++ [newAppointment] }

/-- The object literal `{ ...o, status }` of the two status updates. -/
def withStatus (o : Obj) (status : Val) : Obj :=
  Obj.setProp (Obj.spread [] o) "status" status

/-- Handler `updateAppointmentStatus(appointmentId, status)`. -/
def updateAppointmentStatus (appointmentId status : Val) (s : AppState) : AppState :=
  { s with appointments :=
      s.appointments.map (fun a =>
        if Obj.getProp a "id" = appointmentId then withStatus a status else a) }

/-- Handler `createPrescription(data)`; `now₁` and `now₂` are the two values of
`Date.now()` (prescription id, record id) and `iso` is
`new Date().toISOString()`. -/
def createPrescription (now₁ now₂ : Int) (iso : String) (data : Obj) (s : AppState) :
    AppState :=
  let newPrescription : Obj :=
    Obj.setProp (Obj.spread [("id", Val.num now₁)] data) "status" (Val.str "Pending")
  let newRecord : Obj :=
    [("id", Val.num now₂),
     ("patientName", Obj.getProp data "patientName"),
     ("doctorName", Obj.getProp data "doctorName"),
     ("summary", Val.or (Obj.getProp data "diagnosis") (Val.str "Prescription generated")),
     ("labReport", Val.or (Obj.getProp data "labReport") (Val.str "N/A")),
     ("date", Val.str (iso.take 10))]
  { s with prescriptions := s.prescriptions ++ [newPrescription],
           records := s.records ++ [newRecord] }

/-- Handler `updatePrescriptionStatus(prescriptionId, status)`. -/
def updatePrescriptionStatus (prescriptionId status : Val) (s : AppState) : AppState :=
  { s with prescriptions :=
      s.prescriptions.map (fun p =>
        if Obj.getProp p "id" = prescriptionId then withStatus p status else p) }

/-- How a call of a handler ends: it returns and leaves the next state, or it
throws an error of the given name. -/
inductive Completion where
  | returned (next : AppState) : Completion
  | thrown (error : String) : Completion
  deriving DecidableEq, Repr

/-- A call of `updateAppointmentStatus(appointmentId, status)` with the way it
ends: the body is the single statement `setAppointments(...)`, with no `throw`
and no test of whether an appointment was found, so the call returns. -/
def updateAppointmentStatusCall (appointmentId status : Val) (s : AppState) : Completion :=
  Completion.returned (updateAppointmentStatus appointmentId status s)

/-! ## Role guard and the `/admin` route (lines 119-131, 221-230, 362-366) -/

/-- What a guarded route renders. -/
inductive Rendered (α : Type) where
  /-- The element `<Navigate to="/" replace />`: back to the login page. -/
  | navigateHome : Rendered α
  /-- The element `<h2 className="error-text">Access denied for this role.</h2>`. -/
  | accessDenied : Rendered α
  /-- The guarded `children`. -/
  | children (c : α) : Rendered α
  deriving DecidableEq, Repr

/-- Component `RequireRole({ role, user, children })`. -/
def RequireRole {α : Type} (role : String) (user : User) (children : α) : Rendered α :=
  if user.role = "" then Rendered.navigateHome
  else if user.role ≠ role then Rendered.accessDenied
  else Rendered.children children

/-- Props handed to `AdminDashboard` by the `/admin` route. -/
structure AdminDashboardProps where
  appointments : List Obj
  prescriptions : List Obj
  usersSummary : User
  onUpdateAppointmentStatus : Val → Val → AppState → AppState

/-- The element of the `/admin` route: `AdminDashboard` inside
`RequireRole role="admin"`. -/
def adminRoute (s : AppState) : Rendered AdminDashboardProps :=
  RequireRole "admin" s.user
    { appointments := s.appointments, prescriptions := s.prescriptions,
      usersSummary := s.user, onUpdateAppointmentStatus := updateAppointmentStatus }

/-- The three `<option>` values of the status `<select>` of `AdminDashboard`
(lines 368-370). -/
def statusOptions : List String := ["Pending", "Approved", "Cancelled"]

/-- The `onChange` calls a rendered `AdminDashboard` offers (lines 353-374):
`appointments.map` renders one row per appointment `a`, whose `<select>`
calls `onUpdateAppointmentStatus(a.id, e.target.value)` with the value of one
of its options. -/
def AdminDashboard.events (props : AdminDashboardProps) : List (AppState → AppState) :=
  props.appointments.flatMap (fun a =>
    statusOptions.map (fun v =>
      props.onUpdateAppointmentStatus (Obj.getProp a "id") (Val.str v)))

/-- The state changes offered by what the `/admin` route renders: those of the
dashboard when the guard returns its children; the `<Navigate>` of line 224
and the `<h2>` of line 227 carry no event handler. -/
def adminRouteEvents (s : AppState) : List (AppState → AppState) :=
  match adminRoute s with
  | Rendered.navigateHome => []
  | Rendered.accessDenied => []
  | Rendered.children props => AdminDashboard.events props

/-- The states one event of the `/admin` page leads to from `s`. -/
def adminRouteNextStates (s : AppState) : List AppState :=
  (adminRouteEvents s).map (fun handler => handler s)

/-- Reachability through events of the `/admin` page. -/
inductive AdminReach : AppState → AppState → Prop where
  | here (s : AppState) : AdminReach s s
  | next {s t u : AppState} :
      t ∈ adminRouteNextStates s → AdminReach t u → AdminReach s u

/-! ## Per-role list filters (lines 385-389, 581-593) -/

/-- Call `v.toLowerCase()` for a property value `v`, with `lower` the host's
`String.prototype.toLowerCase`; `none` is the `TypeError` raised when `v` is
not a string. -/
def Val.toLowerCase (lower : String → String) : Val → Option String
  | Val.str s => some (lower s)
  | _ => none

/-- Call `xs.filter(p)` with a callback that may throw: elements are tested in
order and the first exception aborts the whole call (`none`). -/
def filterThrowing (p : Obj → Option Bool) : List Obj → Option (List Obj)
  | [] => some []
  | a :: rest =>
    match p a with
    | none => none
    | some b =>
      match filterThrowing p rest with
      | none => none
      | some r => some (if b then a :: r else r)

namespace DoctorDashboard

/-- The callback of `myAppointments`:
`a.doctorName.toLowerCase() === (user.name || "").toLowerCase() ||
 a.doctorName.toLowerCase() === "dr. mehta"`. -/
def isMine (lower : String → String) (user : User) (a : Obj) : Option Bool :=
  match Val.toLowerCase lower (Obj.getProp a "doctorName") with
  | none => none
  | some d =>
    if d = lower (strOr user.name "") then some true
    else
      match Val.toLowerCase lower (Obj.getProp a "doctorName") with
      | none => none
      | some d' => some (decide (d' = "dr. mehta"))

/-- List `myAppointments` of `DoctorDashboard`. -/
def myAppointments (lower : String → String) (user : User) (appointments : List Obj) :
    Option (List Obj) :=
  filterThrowing (isMine lower user) appointments

end DoctorDashboard

namespace PatientDashboard

/-- Constant `myNameLower = (user.name || "").toLowerCase()`. -/
def myNameLower (lower : String → String) (user : User) : String :=
  lower (strOr user.name "")

/-- The callback shared by the three filters:
`x.patientName.toLowerCase() === myNameLower`. -/
def isMine (lower : String → String) (user : User) (x : Obj) : Option Bool :=
  match Val.toLowerCase lower (Obj.getProp x "patientName") with
  | none => none
  | some n => some (decide (n = myNameLower lower user))

/-- List `myAppointments` of `PatientDashboard`. -/
def myAppointments (lower : String → String) (user : User) (appointments : List Obj) :
    Option (List Obj) :=
  filterThrowing (isMine lower user) appointments

/-- List `myPrescriptions` of `PatientDashboard`. -/
def myPrescriptions (lower : String → String) (user : User) (prescriptions : List Obj) :
    Option (List Obj) :=
  filterThrowing (isMine lower user) prescriptions

/-- List `myRecords` of `PatientDashboard`. -/
def myRecords (lower : String → String) (user : User) (records : List Obj) :
    Option (List Obj) :=
  filterThrowing (isMine lower user) records

end PatientDashboard

/-! ## Vocabulary of the properties -/

/-- Lower-casing of the ASCII letters, on which every `toLowerCase` agrees;
used to evaluate the filters on concrete names. -/
def asciiLower (s : String) : String := String.mk (s.data.map Char.toLower)

/-- Two names are equal ignoring letter case: they have the same lower-case
form. -/
def eqIgnoreCase (lower : String → String) (a b : String) : Prop := lower a = lower b

instance (lower : String → String) (a b : String) : Decidable (eqIgnoreCase lower a b) :=
  inferInstanceAs (Decidable (lower a = lower b))

/-- A property value is a name equal, ignoring letter case, to `name`. -/
def nameIs (lower : String → String) (v : Val) (name : String) : Bool :=
  match v with
  | Val.str s => decide (eqIgnoreCase lower s name)
  | _ => false

/-- Removal of leading and trailing whitespace: the "trimmed" display name of
the specification's Directory Matching. -/
def trimName (s : String) : String :=
  String.mk
    (((s.data.dropWhile Char.isWhitespace).reverse.dropWhile Char.isWhitespace).reverse)

/-- Directory Matching in the specification's words, `matches(recordName,
actorName)`: case-insensitive equality of trimmed display names. -/
def specMatches (lower : String → String) (recordName actorName : String) : Bool :=
  decide (eqIgnoreCase lower (trimName recordName) (trimName actorName))

/-- The ids of a collection, in order. -/
def ids (l : List Obj) : List Val := l.map (fun o => Obj.getProp o "id")

/-! ## Concrete data used to evaluate the handlers -/

/-- The booking of the spec's end-to-end scenario, as submitted by the
patient form. -/
def ashaBooking : Obj :=
  [("patientName", Val.str "Asha"), ("doctorName", Val.str "Dr. Mehta"),
   ("date", Val.str "2025-01-01"), ("time", Val.str "10:00"), ("reason", Val.str "cough")]

/-- An appointment booked for Asha while `Date.now()` was `1735725600000`. -/
def ashaAppointment : Obj :=
  [("id", Val.num 1735725600000), ("patientName", Val.str "Asha"),
   ("doctorName", Val.str "Dr. Mehta"), ("date", Val.str "2025-01-01"),
   ("time", Val.str "10:00"), ("reason", Val.str "cough"), ("status", Val.str "Pending")]

/-- An appointment booked under the name "Rohit". -/
def rohitAppointment : Obj :=
  [("id", Val.num 1735725600001), ("patientName", Val.str "Rohit"),
   ("doctorName", Val.str "Dr. Rao"), ("date", Val.str "2025-01-02"),
   ("time", Val.str "11:30"), ("reason", Val.str "fever"), ("status", Val.str "Pending")]

/-- A session in which a patient is logged in and one appointment exists. -/
def patientSession : AppState :=
  { appointments := [ashaAppointment], prescriptions := [], records := [seedRecord],
    user := { role := "patient", name := "Asha" } }

/-- A prescription form with a diagnosis and no lab report. -/
def ashaPrescription : Obj :=
  [("appointmentId", Val.num 1735725600000), ("patientName", Val.str "Asha"),
   ("doctorName", Val.str "Dr. Mehta"), ("medication", Val.str "Paracetamol"),
   ("dosage", Val.str "1-0-1 for 5 days"), ("instructions", Val.str "after food"),
   ("diagnosis", Val.str "Viral fever"), ("labReport", Val.str "")]

/-- A session in which the administrator is logged in and one appointment
exists. -/
def adminSession : AppState :=
  { appointments := [ashaAppointment], prescriptions := [], records := [seedRecord],
    user := { role := "admin", name := "ADMIN" } }

/-- An appointment whose names were typed with a blank before and after. -/
def paddedAppointment : Obj :=
  [("id", Val.num 1735725600002), ("patientName", Val.str " Rohit "),
   ("doctorName", Val.str " Dr. Rao "), ("date", Val.str "2025-01-03"),
   ("time", Val.str "09:00"), ("reason", Val.str "check-up"), ("status", Val.str "Pending")]

/-! ## Lemmas on objects -/

theorem getProp_setProp (o : Obj) (k k' : String) (v : Val) :
    Obj.getProp (Obj.setProp o k v) k' = if k = k' then v else Obj.getProp o k' := by
  induction o with
  | nil => simp [Obj.setProp, Obj.getProp]
  | cons p rest ih =>
    obtain ⟨k₀, v₀⟩ := p
    by_cases h : k₀ = k
    · subst h
      by_cases h' : k₀ = k' <;> simp [Obj.setProp, Obj.getProp, h']
    · by_cases h' : k₀ = k'
      · subst h'
        simp [Obj.setProp, Obj.getProp, h, Ne.symm h]
      · simp [Obj.setProp, Obj.getProp, h, h', ih]

theorem getProp_foldl_setProp (f : String → Val) (ks : List String) (acc : Obj) (k : String) :
    Obj.getProp (ks.foldl (fun a x => Obj.setProp a x (f x)) acc) k
      = if k ∈ ks then f k else Obj.getProp acc k := by
  induction ks generalizing acc with
  | nil => simp
  | cons x xs ih =>
    simp only [List.foldl_cons, ih, getProp_setProp, List.mem_cons]
    by_cases hx : k ∈ xs
    · simp [hx]
    · by_cases hk : x = k
      · subst hk; simp
      · simp [hx, hk, Ne.symm hk]

/-- Reading a spread: the source's property when the source has the key, the
literal's earlier property otherwise. -/
theorem getProp_spread (target src : Obj) (k : String) :
    Obj.getProp (Obj.spread target src) k
      = if k ∈ Obj.keys src then Obj.getProp src k else Obj.getProp target k := by
  unfold Obj.spread
  exact getProp_foldl_setProp (fun x => Obj.getProp src x) (Obj.keys src) target k

theorem getProp_of_not_mem_keys (o : Obj) (k : String) (h : k ∉ Obj.keys o) :
    Obj.getProp o k = Val.undefined := by
  induction o with
  | nil => rfl
  | cons p rest ih =>
    obtain ⟨k₀, v₀⟩ := p
    simp only [Obj.keys, List.map_cons, List.mem_cons, not_or] at h
    simp only [Obj.getProp]
    rw [if_neg (Ne.symm h.1)]
    exact ih h.2

/-- Reading `{ k₀: v₀, ...data }` at a key other than `k₀` reads `data`. -/
theorem getProp_spread_single (k₀ : String) (v₀ : Val) (data : Obj) (k : String)
    (h : k₀ ≠ k) :
    Obj.getProp (Obj.spread [(k₀, v₀)] data) k = Obj.getProp data k := by
  rw [getProp_spread]
  by_cases hk : k ∈ Obj.keys data
  · simp [hk]
  · simp [hk, Obj.getProp, h, getProp_of_not_mem_keys data k hk]

theorem keys_setProp (o : Obj) (k : String) (v : Val) :
    Obj.keys (Obj.setProp o k v) = if k ∈ Obj.keys o then Obj.keys o else Obj.keys o ++ [k] := by
  induction o with
  | nil => simp [Obj.setProp, Obj.keys]
  | cons p rest ih =>
    obtain ⟨k₀, v₀⟩ := p
    by_cases h : k₀ = k
    · subst h
      simp [Obj.setProp, Obj.keys]
    · have ih' : List.map Prod.fst (Obj.setProp rest k v)
          = if k ∈ List.map Prod.fst rest then List.map Prod.fst rest
            else List.map Prod.fst rest ++ [k] := ih
      by_cases hk : k ∈ List.map Prod.fst rest
      · simp [Obj.setProp, Obj.keys, h, ih', hk]
      · simp [Obj.setProp, Obj.keys, h, Ne.symm h, ih', hk]

theorem nodup_keys_setProp (o : Obj) (k : String) (v : Val) (h : (Obj.keys o).Nodup) :
    (Obj.keys (Obj.setProp o k v)).Nodup := by
  rw [keys_setProp]
  by_cases hk : k ∈ Obj.keys o
  · simpa [hk] using h
  · simp only [hk, if_false]
    exact List.Nodup.append h (List.nodup_singleton k) (by simpa using hk)

theorem nodup_keys_foldl_setProp (f : String → Val) (ks : List String) (acc : Obj)
    (h : (Obj.keys acc).Nodup) :
    (Obj.keys (ks.foldl (fun a x => Obj.setProp a x (f x)) acc)).Nodup := by
  induction ks generalizing acc with
  | nil => simpa using h
  | cons x xs ih =>
    simp only [List.foldl_cons]
    exact ih _ (nodup_keys_setProp acc x (f x) h)

/-- A spread into a literal with distinct keys has distinct keys. -/
theorem nodup_keys_spread (target src : Obj) (h : (Obj.keys target).Nodup) :
    (Obj.keys (Obj.spread target src)).Nodup :=
  nodup_keys_foldl_setProp (fun x => Obj.getProp src x) (Obj.keys src) target h

theorem setProp_of_not_mem_keys (o : Obj) (k : String) (v : Val) (h : k ∉ Obj.keys o) :
    Obj.setProp o k v = o ++ [(k, v)] := by
  induction o with
  | nil => rfl
  | cons p rest ih =>
    obtain ⟨k₀, v₀⟩ := p
    simp only [Obj.keys, List.map_cons, List.mem_cons, not_or] at h
    simp only [Obj.setProp, List.cons_append]
    rw [if_neg (Ne.symm h.1), ih h.2]

theorem getProp_append_cons_of_not_mem (pre suf : Obj) (k : String) (v : Val)
    (h : k ∉ Obj.keys pre) : Obj.getProp (pre ++ (k, v) :: suf) k = v := by
  induction pre with
  | nil => simp [Obj.getProp]
  | cons p rest ih =>
    obtain ⟨k₀, v₀⟩ := p
    simp only [Obj.keys, List.map_cons, List.mem_cons, not_or] at h
    simp only [List.cons_append, Obj.getProp]
    rw [if_neg (Ne.symm h.1)]
    exact ih h.2

theorem foldl_setProp_rebuild (src : Obj) (suf pre : Obj) (hsrc : src = pre ++ suf)
    (h : (Obj.keys src).Nodup) :
    (Obj.keys suf).foldl (fun acc k => Obj.setProp acc k (Obj.getProp src k)) pre = src := by
  induction suf generalizing pre with
  | nil => simp [Obj.keys, hsrc]
  | cons p rest ih =>
    obtain ⟨k, v⟩ := p
    have hk : k ∉ Obj.keys pre := by
      rw [hsrc] at h
      simp only [Obj.keys, List.map_append, List.map_cons] at h
      have := (List.nodup_append.mp h).2.2
      intro hmem
      exact this hmem (List.mem_cons_self _ _)
    simp only [Obj.keys, List.map_cons, List.foldl_cons]
    have hget : Obj.getProp src k = v := by
      rw [hsrc]; exact getProp_append_cons_of_not_mem pre rest k v hk
    rw [hget, setProp_of_not_mem_keys pre k v hk]
    exact ih (pre ++ [(k, v)]) (by simp [hsrc])

/-- Copying an object with distinct keys into an empty literal gives the same
properties in the same order: `{ ...o }` is `o`. -/
theorem spread_nil_of_nodup (o : Obj) (h : (Obj.keys o).Nodup) : Obj.spread [] o = o :=
  foldl_setProp_rebuild o o [] (by simp) h

theorem setProp_setProp_same (o : Obj) (k : String) (v : Val) :
    Obj.setProp (Obj.setProp o k v) k v = Obj.setProp o k v := by
  induction o with
  | nil => simp [Obj.setProp]
  | cons p rest ih =>
    obtain ⟨k₀, v₀⟩ := p
    by_cases h : k₀ = k
    · subst h; simp [Obj.setProp]
    · simp [Obj.setProp, h, ih]

/-! ## Lemmas on the status literal `{ ...o, status }` -/

theorem getProp_withStatus (o : Obj) (status : Val) (k : String) :
    Obj.getProp (withStatus o status) k = if k = "status" then status else Obj.getProp o k := by
  unfold withStatus
  rw [getProp_setProp, getProp_spread]
  by_cases hk : k = "status"
  · simp [hk]
  · have hk' : ¬ "status" = k := fun h => hk h.symm
    by_cases hm : k ∈ Obj.keys o
    · simp [hk, hk', hm]
    · simp [hk, hk', hm, Obj.getProp, getProp_of_not_mem_keys o k hm]

theorem nodup_keys_withStatus (o : Obj) (status : Val) :
    (Obj.keys (withStatus o status)).Nodup :=
  nodup_keys_setProp _ _ _ (nodup_keys_spread [] o (by simp [Obj.keys]))

theorem withStatus_withStatus (o : Obj) (status : Val) :
    withStatus (withStatus o status) status = withStatus o status := by
  have h := spread_nil_of_nodup (withStatus o status) (nodup_keys_withStatus o status)
  have h₁ : withStatus (withStatus o status) status
      = Obj.setProp (Obj.spread [] (withStatus o status)) "status" status := rfl
  rw [h₁, h]
  unfold withStatus
  exact setProp_setProp_same _ _ _

/-- One status update applied to one element of a ledger. -/
theorem statusStep_idem (id status : Val) (o : Obj) :
    (fun a => if Obj.getProp a "id" = id then withStatus a status else a)
      ((fun a => if Obj.getProp a "id" = id then withStatus a status else a) o)
      = (fun a => if Obj.getProp a "id" = id then withStatus a status else a) o := by
  by_cases h : Obj.getProp o "id" = id
  · have h' : Obj.getProp (withStatus o status) "id" = id := by
      rw [getProp_withStatus]; simpa using h
    simp only [h, if_true, h', withStatus_withStatus]
  · simp [h]

/-! ## Lemmas on the filters -/

theorem filterThrowing_eq_filter (p : Obj → Option Bool) (q : Obj → Bool) (l : List Obj)
    (h : ∀ a ∈ l, p a = some (q a)) : filterThrowing p l = some (l.filter q) := by
  induction l with
  | nil => rfl
  | cons a rest ih =>
    have ha : p a = some (q a) := h a (List.mem_cons_self _ _)
    have hr : filterThrowing p rest = some (rest.filter q) :=
      ih (fun b hb => h b (List.mem_cons_of_mem _ hb))
    simp only [filterThrowing, ha, hr, List.filter_cons]

theorem strOr_empty (s : String) : strOr s "" = s := by
  unfold strOr
  by_cases h : s = "" <;> simp [h]

/-! ## Booking and prescribing -/

/-- C1: for every appointment list and every booking data (also one that
carries its own `status`), `bookAppointment` gives the old list, unchanged and
in order, followed by exactly one new appointment whose status is "Pending"
and whose patientName, doctorName, date, time and reason are those of the
data. -/
theorem bookAppointment_appends_pending (now : Int) (data : Obj) (s : AppState) :
    ∃ a : Obj, (bookAppointment now data s).appointments = s.appointments ++ [a]
      ∧ Obj.getProp a "status" = Val.str "Pending"
      ∧ Obj.getProp a "patientName" = Obj.getProp data "patientName"
      ∧ Obj.getProp a "doctorName" = Obj.getProp data "doctorName"
      ∧ Obj.getProp a "date" = Obj.getProp data "date"
      ∧ Obj.getProp a "time" = Obj.getProp data "time"
      ∧ Obj.getProp a "reason" = Obj.getProp data "reason" := by
  refine ⟨_, rfl, ?_, ?_, ?_, ?_, ?_, ?_⟩
  · rw [getProp_setProp]; simp
  all_goals
    rw [getProp_setProp, if_neg (by decide)]
    exact getProp_spread_single "id" _ data _ (by decide)

/-- C2: one `createPrescription` adds exactly one prescription, with status
"Pending", at the end of the prescription list and exactly one record at the
end of the record list; the record's patientName and doctorName are those of
the new prescription; both lengths grow by one and every earlier entry is kept
in place. -/
theorem createPrescription_appends_pair (now₁ now₂ : Int) (iso : String) (data : Obj)
    (s : AppState) :
    ∃ p r : Obj,
      (createPrescription now₁ now₂ iso data s).prescriptions = s.prescriptions ++ [p]
      ∧ (createPrescription now₁ now₂ iso data s).records = s.records ++ [r]
      ∧ Obj.getProp p "status" = Val.str "Pending"
      ∧ Obj.getProp r "patientName" = Obj.getProp p "patientName"
      ∧ Obj.getProp r "doctorName" = Obj.getProp p "doctorName"
      ∧ (createPrescription now₁ now₂ iso data s).prescriptions.length
          = s.prescriptions.length + 1
      ∧ (createPrescription now₁ now₂ iso data s).records.length = s.records.length + 1 := by
  refine ⟨_, _, rfl, rfl, ?_, ?_, ?_, ?_, ?_⟩
  · rw [getProp_setProp]; simp
  · rw [getProp_setProp, if_neg (by decide),
      getProp_spread_single "id" _ data _ (by decide)]
    simp [Obj.getProp]
  · rw [getProp_setProp, if_neg (by decide),
      getProp_spread_single "id" _ data _ (by decide)]
    simp [Obj.getProp]
  · simp [createPrescription]
  · simp [createPrescription]

/-- C3: the record appended by `createPrescription` has summary
`data.diagnosis` when that is a non-empty text and "Prescription generated"
when it is empty or missing, and labReport `data.labReport` when that is a
non-empty text and "N/A" when it is empty or missing. -/
theorem createPrescription_record_defaults (now₁ now₂ : Int) (iso : String) (data : Obj)
    (s : AppState) :
    ∃ r : Obj, (createPrescription now₁ now₂ iso data s).records = s.records ++ [r]
      ∧ (∀ t : String, Obj.getProp data "diagnosis" = Val.str t → t ≠ "" →
            Obj.getProp r "summary" = Val.str t)
      ∧ (Obj.getProp data "diagnosis" = Val.str "" ∨
          Obj.getProp data "diagnosis" = Val.undefined →
            Obj.getProp r "summary" = Val.str "Prescription generated")
      ∧ (∀ t : String, Obj.getProp data "labReport" = Val.str t → t ≠ "" →
            Obj.getProp r "labReport" = Val.str t)
      ∧ (Obj.getProp data "labReport" = Val.str "" ∨
          Obj.getProp data "labReport" = Val.undefined →
            Obj.getProp r "labReport" = Val.str "N/A") := by
  refine ⟨_, rfl, ?_, ?_, ?_, ?_⟩
  · intro t ht hne
    simp [Obj.getProp, ht, Val.or, Val.truthy, hne]
  · intro h
    rcases h with h | h <;> simp [Obj.getProp, h, Val.or, Val.truthy]
  · intro t ht hne
    simp [Obj.getProp, ht, Val.or, Val.truthy, hne]
  · intro h
    rcases h with h | h <;> simp [Obj.getProp, h, Val.or, Val.truthy]

/-- C3 at the form `ashaPrescription` (diagnosis "Viral fever", empty lab
report): the summary is the diagnosis and the lab report is "N/A". -/
theorem createPrescription_record_defaults_witness :
    ∃ r : Obj,
      (createPrescription 1735725700000 1735725700000 "2025-01-01T10:01:40.000Z"
          ashaPrescription patientSession).records = patientSession.records ++ [r]
      ∧ Obj.getProp r "summary" = Val.str "Viral fever"
      ∧ Obj.getProp r "labReport" = Val.str "N/A" := by
  obtain ⟨r, hr, hs, _, _, hl⟩ :=
    createPrescription_record_defaults 1735725700000 1735725700000
      "2025-01-01T10:01:40.000Z" ashaPrescription patientSession
  exact ⟨r, hr, hs "Viral fever" (by decide) (by decide), hl (Or.inl (by decide))⟩

/-! ## Roles -/

theorem adminRoute_of_admin (s : AppState) (h : s.user.role = "admin") :
    adminRouteNextStates s
      = s.appointments.flatMap (fun a =>
          statusOptions.map (fun v =>
            updateAppointmentStatus (Obj.getProp a "id") (Val.str v) s)) := by
  have hr : adminRoute s = Rendered.children
      { appointments := s.appointments, prescriptions := s.prescriptions,
        usersSummary := s.user, onUpdateAppointmentStatus := updateAppointmentStatus } := by
    unfold adminRoute RequireRole
    simp [h]
  unfold adminRouteNextStates adminRouteEvents
  rw [hr]
  simp only [AdminDashboard.events, List.map_flatMap, List.map_map]
  rfl

/-- C4, as stated, fails: before any login the role is empty, hence not admin,
and the `/admin` route answers with the redirect to the login page, not with
the access-denied message, which is the one refusal the code reports. -/
theorem adminRoute_logged_out_redirects :
    initialState.user.role ≠ "admin"
      ∧ adminRoute initialState = Rendered.navigateHome
      ∧ adminRoute initialState ≠ Rendered.accessDenied := by
  have h : adminRoute initialState = Rendered.navigateHome := by
    simp [adminRoute, RequireRole, initialState]
  refine ⟨by decide, h, ?_⟩
  rw [h]
  intro hne
  cases hne

/-- C4, amended: when the active role is not admin, the guard of the `/admin`
route refuses the dashboard: a non-empty role gets the access-denied message
and an empty role is redirected to the login page. In both cases the page
offers no status control, no state follows from it, and every state reachable
through it is the state itself, so the appointment list is unchanged. -/
theorem adminRoute_refuses_non_admin (s : AppState) (h : s.user.role ≠ "admin") :
    (s.user.role ≠ "" → adminRoute s = Rendered.accessDenied)
      ∧ (s.user.role = "" → adminRoute s = Rendered.navigateHome)
      ∧ adminRouteEvents s = []
      ∧ adminRouteNextStates s = []
      ∧ ∀ s' : AppState, AdminReach s s' → s' = s ∧ s'.appointments = s.appointments := by
  have hden : s.user.role ≠ "" → adminRoute s = Rendered.accessDenied := by
    intro he
    unfold adminRoute RequireRole
    simp [he, h]
  have hnav : s.user.role = "" → adminRoute s = Rendered.navigateHome := by
    intro he
    unfold adminRoute RequireRole
    simp [he]
  have hev : adminRouteEvents s = [] := by
    unfold adminRouteEvents
    by_cases he : s.user.role = ""
    · rw [hnav he]
    · rw [hden he]
  have hnext : adminRouteNextStates s = [] := by
    unfold adminRouteNextStates
    rw [hev]
    rfl
  refine ⟨hden, hnav, hev, hnext, ?_⟩
  intro s' hreach
  cases hreach with
  | here => exact ⟨rfl, rfl⟩
  | next hmem _ =>
    rw [hnext] at hmem
    cases hmem

/-- C4, amended, for the patient session: the `/admin` route shows the
access-denied message, offers no state change, and the appointment list is
the one appointment it was. -/
theorem adminRoute_refuses_non_admin_witness :
    adminRoute patientSession = Rendered.accessDenied
      ∧ adminRouteNextStates patientSession = []
      ∧ ∀ s' : AppState, AdminReach patientSession s' →
          s'.appointments = [ashaAppointment] := by
  have h := adminRoute_refuses_non_admin patientSession (by decide)
  refine ⟨h.1 (by decide), h.2.2.2.1, ?_⟩
  intro s' hreach
  rw [(h.2.2.2.2 s' hreach).2]
  rfl

/-- C5: `RequireRole` returns its children exactly when `user.role` is
non-empty and equal to the required role; an empty role is sent to the login
page, a different non-empty role gets the access-denied message, and no
mismatched role ever gets the children. -/
theorem RequireRole_spec {α : Type} (role : String) (user : User) (children : α) :
    (RequireRole role user children = Rendered.children children
        ↔ user.role ≠ "" ∧ user.role = role)
      ∧ (user.role = "" → RequireRole role user children = Rendered.navigateHome)
      ∧ (user.role ≠ "" → user.role ≠ role →
            RequireRole role user children = Rendered.accessDenied)
      ∧ (user.role ≠ role → ∀ c : α, RequireRole role user children ≠ Rendered.children c) := by
  unfold RequireRole
  by_cases he : user.role = ""
  · simp [he]
  · by_cases hr : user.role = role
    · simp [he, hr]
    · simp [he, hr]

/-- C5 for a patient asking for the admin dashboard: access denied; and for a
logged-out visitor: back to the login page. -/
theorem RequireRole_spec_witness :
    RequireRole "admin" { role := "patient", name := "Asha" } () = Rendered.accessDenied
      ∧ RequireRole "admin" { role := "", name := "" } () = Rendered.navigateHome
      ∧ RequireRole "admin" { role := "admin", name := "Root" } () = Rendered.children () :=
  ⟨(RequireRole_spec "admin" { role := "patient", name := "Asha" } ()).2.2.1
      (by decide) (by decide),
   (RequireRole_spec "admin" { role := "", name := "" } ()).2.1 rfl,
   (RequireRole_spec "admin" { role := "admin", name := "Root" } ()).1.mpr
      ⟨by decide, rfl⟩⟩

/-! ## Identifiers -/

/-- C6: the claim does not hold of the code. In a list whose ids are pairwise
distinct, a booking made while `Date.now()` returns the value it returned for
the earlier booking gets the id of the earlier appointment, so the ids are no
longer pairwise distinct; a status update by that id, meant for one
appointment, then rewrites both. -/
theorem bookAppointment_id_clash :
    (ids patientSession.appointments).Nodup
      ∧ ids (bookAppointment 1735725600000 ashaBooking patientSession).appointments
          = [Val.num 1735725600000, Val.num 1735725600000]
      ∧ ¬ (ids (bookAppointment 1735725600000 ashaBooking patientSession).appointments).Nodup
      ∧ (updateAppointmentStatus (Val.num 1735725600000) (Val.str "Cancelled")
            (bookAppointment 1735725600000 ashaBooking patientSession)).appointments.map
          (fun a => Obj.getProp a "status")
          = [Val.str "Cancelled", Val.str "Cancelled"] := by
  decide

/-! ## Views -/

theorem patient_isMine_eq (lower : String → String) (user : User) (a : Obj) (n : String)
    (h : Obj.getProp a "patientName" = Val.str n) :
    PatientDashboard.isMine lower user a
      = some (nameIs lower (Obj.getProp a "patientName") user.name) := by
  simp [PatientDashboard.isMine, PatientDashboard.myNameLower, Val.toLowerCase, h, nameIs,
    eqIgnoreCase, strOr_empty]

theorem doctor_isMine_eq (lower : String → String) (user : User) (a : Obj) (n : String)
    (hdemo : lower "Dr. Mehta" = "dr. mehta")
    (h : Obj.getProp a "doctorName" = Val.str n) :
    DoctorDashboard.isMine lower user a
      = some (nameIs lower (Obj.getProp a "doctorName") user.name
                || nameIs lower (Obj.getProp a "doctorName") "Dr. Mehta") := by
  simp only [DoctorDashboard.isMine, Val.toLowerCase, h, nameIs, eqIgnoreCase, strOr_empty,
    hdemo]
  by_cases h₁ : lower n = lower user.name
  · simp [h₁]
  · simp [h₁]

/-- C7: for appointments whose patientName is text, the patient's
`myAppointments` is exactly the sub-list, in the original order, of the
appointments whose patientName equals the patient's name ignoring letter
case; a patient logged in as "rohit" sees every appointment booked under
"Rohit" and only appointments whose name differs from "rohit" by case at
most. -/
theorem patient_myAppointments_spec (lower : String → String) (user : User)
    (appointments : List Obj)
    (htext : ∀ a ∈ appointments, ∃ n : String, Obj.getProp a "patientName" = Val.str n)
    (hcase : eqIgnoreCase lower "Rohit" "rohit") :
    ∃ mine : List Obj,
      PatientDashboard.myAppointments lower user appointments = some mine
      ∧ mine = appointments.filter
          (fun a => nameIs lower (Obj.getProp a "patientName") user.name)
      ∧ mine.Sublist appointments
      ∧ (∀ a : Obj, a ∈ mine ↔
          a ∈ appointments ∧ ∃ n : String,
            Obj.getProp a "patientName" = Val.str n ∧ eqIgnoreCase lower n user.name)
      ∧ (user.name = "rohit" → ∀ a ∈ appointments,
          Obj.getProp a "patientName" = Val.str "Rohit" → a ∈ mine)
      ∧ (user.name = "rohit" → ∀ a ∈ mine, ∃ n : String,
          Obj.getProp a "patientName" = Val.str n ∧ eqIgnoreCase lower n "rohit") := by
  have hmem : ∀ a : Obj,
      a ∈ appointments.filter (fun a => nameIs lower (Obj.getProp a "patientName") user.name)
        ↔ a ∈ appointments ∧ ∃ n : String,
            Obj.getProp a "patientName" = Val.str n ∧ eqIgnoreCase lower n user.name := by
    intro a
    rw [List.mem_filter]
    constructor
    · rintro ⟨ha, hn⟩
      obtain ⟨n, hn'⟩ := htext a ha
      refine ⟨ha, n, hn', ?_⟩
      simpa [nameIs, hn'] using hn
    · rintro ⟨ha, n, hn', hc⟩
      exact ⟨ha, by simpa [nameIs, hn'] using hc⟩
  refine ⟨_, ?_, rfl, List.filter_sublist _, hmem, ?_, ?_⟩
  · unfold PatientDashboard.myAppointments
    apply filterThrowing_eq_filter
    intro a ha
    obtain ⟨n, hn⟩ := htext a ha
    exact patient_isMine_eq lower user a n hn
  · intro hu a ha hn
    exact (hmem a).mpr ⟨ha, "Rohit", hn, by rw [hu]; exact hcase⟩
  · intro hu a ha
    obtain ⟨_, n, hn, hc⟩ := (hmem a).mp ha
    exact ⟨n, hn, by rw [hu] at hc; exact hc⟩

/-- C7 for the patient "rohit" and a list holding one appointment of Asha and
one booked under "Rohit": the view is the latter alone. -/
theorem patient_myAppointments_spec_witness :
    PatientDashboard.myAppointments asciiLower { role := "patient", name := "rohit" }
        [ashaAppointment, rohitAppointment] = some [rohitAppointment] := by
  obtain ⟨mine, hm, hf, _⟩ :=
    patient_myAppointments_spec asciiLower { role := "patient", name := "rohit" }
      [ashaAppointment, rohitAppointment]
      (by
        intro a ha
        simp only [List.mem_cons, List.mem_singleton, List.not_mem_nil, or_false] at ha
        rcases ha with rfl | rfl
        · exact ⟨"Asha", by decide⟩
        · exact ⟨"Rohit", by decide⟩)
      (by decide)
  rw [hm, hf]
  decide

/-- C8: for appointments whose doctorName is text, the doctor's
`myAppointments` is exactly the sub-list, in the original order, of the
appointments whose doctorName equals, ignoring letter case, the doctor's own
name or the demo name "Dr. Mehta"; every appointment for "Dr. Mehta" is listed
whatever the doctor's login name. -/
theorem doctor_myAppointments_spec (lower : String → String) (user : User)
    (appointments : List Obj)
    (htext : ∀ a ∈ appointments, ∃ n : String, Obj.getProp a "doctorName" = Val.str n)
    (hdemo : lower "Dr. Mehta" = "dr. mehta") :
    ∃ mine : List Obj,
      DoctorDashboard.myAppointments lower user appointments = some mine
      ∧ mine = appointments.filter
          (fun a => nameIs lower (Obj.getProp a "doctorName") user.name
                      || nameIs lower (Obj.getProp a "doctorName") "Dr. Mehta")
      ∧ mine.Sublist appointments
      ∧ (∀ a : Obj, a ∈ mine ↔
          a ∈ appointments ∧ ∃ n : String, Obj.getProp a "doctorName" = Val.str n
            ∧ (eqIgnoreCase lower n user.name ∨ eqIgnoreCase lower n "Dr. Mehta"))
      ∧ (∀ a ∈ appointments, Obj.getProp a "doctorName" = Val.str "Dr. Mehta" → a ∈ mine) := by
  have hmem : ∀ a : Obj,
      a ∈ appointments.filter
          (fun a => nameIs lower (Obj.getProp a "doctorName") user.name
                      || nameIs lower (Obj.getProp a "doctorName") "Dr. Mehta")
        ↔ a ∈ appointments ∧ ∃ n : String, Obj.getProp a "doctorName" = Val.str n
            ∧ (eqIgnoreCase lower n user.name ∨ eqIgnoreCase lower n "Dr. Mehta") := by
    intro a
    rw [List.mem_filter]
    constructor
    · rintro ⟨ha, hn⟩
      obtain ⟨n, hn'⟩ := htext a ha
      refine ⟨ha, n, hn', ?_⟩
      simpa [nameIs, hn'] using hn
    · rintro ⟨ha, n, hn', hc⟩
      exact ⟨ha, by simpa [nameIs, hn'] using hc⟩
  refine ⟨_, ?_, rfl, List.filter_sublist _, hmem, ?_⟩
  · unfold DoctorDashboard.myAppointments
    apply filterThrowing_eq_filter
    intro a ha
    obtain ⟨n, hn⟩ := htext a ha
    exact doctor_isMine_eq lower user a n hdemo hn
  · intro a ha hn
    exact (hmem a).mpr ⟨ha, "Dr. Mehta", hn, Or.inr rfl⟩

/-- C8 for a doctor logged in as "Dr. Rao": the view keeps both the
appointment for "Dr. Rao" and the one for "Dr. Mehta"; for a doctor logged in
as "Dr. Sen" it keeps the one for "Dr. Mehta" alone. -/
theorem doctor_myAppointments_spec_witness :
    DoctorDashboard.myAppointments asciiLower { role := "doctor", name := "dr. rao" }
        [ashaAppointment, rohitAppointment] = some [ashaAppointment, rohitAppointment]
      ∧ ashaAppointment ∈ [ashaAppointment, rohitAppointment].filter
          (fun a => nameIs asciiLower (Obj.getProp a "doctorName") "Dr. Sen"
                      || nameIs asciiLower (Obj.getProp a "doctorName") "Dr. Mehta") := by
  have htext : ∀ a ∈ [ashaAppointment, rohitAppointment],
      ∃ n : String, Obj.getProp a "doctorName" = Val.str n := by
    intro a ha
    simp only [List.mem_cons, List.mem_singleton, List.not_mem_nil, or_false] at ha
    rcases ha with rfl | rfl
    · exact ⟨"Dr. Mehta", by decide⟩
    · exact ⟨"Dr. Rao", by decide⟩
  constructor
  · obtain ⟨mine, hm, hf, _⟩ :=
      doctor_myAppointments_spec asciiLower { role := "doctor", name := "dr. rao" }
        [ashaAppointment, rohitAppointment] htext (by decide)
    rw [hm, hf]
    decide
  · obtain ⟨mine, _, hf, _, _, hall⟩ :=
      doctor_myAppointments_spec asciiLower { role := "doctor", name := "Dr. Sen" }
        [ashaAppointment, rohitAppointment] htext (by decide)
    rw [← hf]
    exact hall ashaAppointment (by decide) (by decide)

/-! ## Status updates -/

theorem statusMap_frame (id status : Val) (l : List Obj) :
    (l.map (fun a => if Obj.getProp a "id" = id then withStatus a status else a)).length
        = l.length
      ∧ ∀ (i : Nat) (a : Obj), l[i]? = some a →
          ∃ b : Obj,
            (l.map (fun a => if Obj.getProp a "id" = id then withStatus a status else a))[i]?
                = some b
            ∧ (Obj.getProp a "id" = id →
                Obj.getProp b "status" = status
                  ∧ ∀ k : String, k ≠ "status" → Obj.getProp b k = Obj.getProp a k)
            ∧ (Obj.getProp a "id" ≠ id → b = a) := by
  refine ⟨List.length_map _ _, ?_⟩
  intro i a hi
  refine ⟨_, by rw [List.getElem?_map, hi]; rfl, ?_, ?_⟩
  · intro h
    simp only [h, if_true]
    refine ⟨by rw [getProp_withStatus]; simp, ?_⟩
    intro k hk
    rw [getProp_withStatus, if_neg hk]
  · intro h
    simp [h]

/-- C9: `updateAppointmentStatus` returns a list of the same length and order
in which every appointment with the given id has its status set to the given
value and every other field unchanged, while every appointment with another
id is unchanged; `updatePrescriptionStatus` does the same on the prescription
list. -/
theorem status_updates_frame (id status : Val) (s : AppState) :
    ((updateAppointmentStatus id status s).appointments.length = s.appointments.length
      ∧ ∀ (i : Nat) (a : Obj), s.appointments[i]? = some a →
          ∃ b : Obj, (updateAppointmentStatus id status s).appointments[i]? = some b
            ∧ (Obj.getProp a "id" = id →
                Obj.getProp b "status" = status
                  ∧ ∀ k : String, k ≠ "status" → Obj.getProp b k = Obj.getProp a k)
            ∧ (Obj.getProp a "id" ≠ id → b = a))
    ∧ ((updatePrescriptionStatus id status s).prescriptions.length = s.prescriptions.length
      ∧ ∀ (i : Nat) (p : Obj), s.prescriptions[i]? = some p →
          ∃ q : Obj, (updatePrescriptionStatus id status s).prescriptions[i]? = some q
            ∧ (Obj.getProp p "id" = id →
                Obj.getProp q "status" = status
                  ∧ ∀ k : String, k ≠ "status" → Obj.getProp q k = Obj.getProp p k)
            ∧ (Obj.getProp p "id" ≠ id → q = p)) :=
  ⟨statusMap_frame id status s.appointments, statusMap_frame id status s.prescriptions⟩

/-- C9 for the appointment of the patient session, moved to "Cancelled": the
entry at index 0 has the new status and keeps its id, names, date, time and
reason. -/
theorem status_updates_frame_witness :
    ∃ b : Obj,
      (updateAppointmentStatus (Val.num 1735725600000) (Val.str "Cancelled")
          patientSession).appointments[0]? = some b
      ∧ Obj.getProp b "status" = Val.str "Cancelled"
      ∧ Obj.getProp b "id" = Val.num 1735725600000
      ∧ Obj.getProp b "patientName" = Val.str "Asha"
      ∧ Obj.getProp b "doctorName" = Val.str "Dr. Mehta"
      ∧ Obj.getProp b "date" = Val.str "2025-01-01"
      ∧ Obj.getProp b "time" = Val.str "10:00"
      ∧ Obj.getProp b "reason" = Val.str "cough" := by
  obtain ⟨b, hb, hset, _⟩ :=
    (status_updates_frame (Val.num 1735725600000) (Val.str "Cancelled") patientSession).1.2
      0 ashaAppointment (by decide)
  obtain ⟨hstatus, hrest⟩ := hset (by decide)
  refine ⟨b, hb, hstatus, ?_, ?_, ?_, ?_, ?_, ?_⟩
  · rw [hrest "id" (by decide)]; decide
  · rw [hrest "patientName" (by decide)]; decide
  · rw [hrest "doctorName" (by decide)]; decide
  · rw [hrest "date" (by decide)]; decide
  · rw [hrest "time" (by decide)]; decide
  · rw [hrest "reason" (by decide)]; decide

/-- C10: applying `updatePrescriptionStatus(id, status)` twice in a row gives
the same state, and so the same prescription list, as applying it once. -/
theorem updatePrescriptionStatus_idempotent (id status : Val) (s : AppState) :
    updatePrescriptionStatus id status (updatePrescriptionStatus id status s)
        = updatePrescriptionStatus id status s
      ∧ (updatePrescriptionStatus id status
            (updatePrescriptionStatus id status s)).prescriptions
          = (updatePrescriptionStatus id status s).prescriptions := by
  have h : updatePrescriptionStatus id status (updatePrescriptionStatus id status s)
      = updatePrescriptionStatus id status s := by
    unfold updatePrescriptionStatus
    simp only [List.map_map]
    congr 1
    apply List.map_congr_left
    intro p _
    exact statusStep_idem id status p
  exact ⟨h, by rw [h]⟩

/-! ## Status update of an id that is not in the list -/

theorem statusMap_absent (id status : Val) (l : List Obj)
    (h : id ∉ l.map (fun o => Obj.getProp o "id")) :
    l.map (fun a => if Obj.getProp a "id" = id then withStatus a status else a) = l := by
  induction l with
  | nil => rfl
  | cons a rest ih =>
    simp only [List.map_cons, List.mem_cons, not_or] at h
    simp only [List.map_cons]
    rw [if_neg (fun e => h.1 e.symm), ih h.2]

/-- C11, as stated, fails: for an id that no appointment carries,
`updateAppointmentStatus` does not end with a NotFound error; the call returns
(and here leaves the state as it was). -/
theorem updateAppointmentStatus_absent_returns :
    Val.num 42 ∉ ids adminSession.appointments
      ∧ updateAppointmentStatusCall (Val.num 42) (Val.str "Approved") adminSession
          ≠ Completion.thrown "NotFound"
      ∧ updateAppointmentStatusCall (Val.num 42) (Val.str "Approved") adminSession
          = Completion.returned adminSession := by
  decide

/-- C11, amended: for every appointment list and every id that no appointment
in the list carries, `updateAppointmentStatus` returns without reporting any
error and leaves the appointment list, and the whole state, unchanged. -/
theorem updateAppointmentStatus_absent_noop (id status : Val) (s : AppState)
    (h : id ∉ ids s.appointments) :
    updateAppointmentStatusCall id status s = Completion.returned s
      ∧ (updateAppointmentStatus id status s).appointments = s.appointments := by
  have hs : updateAppointmentStatus id status s = s := by
    unfold updateAppointmentStatus
    rw [statusMap_absent id status s.appointments h]
  exact ⟨by unfold updateAppointmentStatusCall; rw [hs], by rw [hs]⟩

/-- C11, amended, for the admin session and the id 42, which its one
appointment does not carry. -/
theorem updateAppointmentStatus_absent_noop_witness :
    updateAppointmentStatusCall (Val.num 42) (Val.str "Cancelled") adminSession
        = Completion.returned adminSession
      ∧ (updateAppointmentStatus (Val.num 42) (Val.str "Cancelled") adminSession).appointments
          = [ashaAppointment] :=
  updateAppointmentStatus_absent_noop (Val.num 42) (Val.str "Cancelled") adminSession
    (by decide)

/-! ## Directory Matching -/

/-- C12, as stated, fails: the names " Rohit " and "rohit" are equal after
trimming and ignoring case, yet the patient filter does not match them, and
the view of patient "rohit" leaves out the appointment booked under
" Rohit "; the doctor filter likewise does not match " Dr. Rao " with
"dr. rao". -/
theorem directoryMatching_keeps_whitespace :
    specMatches asciiLower " Rohit " "rohit" = true
      ∧ PatientDashboard.isMine asciiLower { role := "patient", name := "rohit" }
          paddedAppointment = some false
      ∧ PatientDashboard.myAppointments asciiLower { role := "patient", name := "rohit" }
          [paddedAppointment] = some []
      ∧ specMatches asciiLower " Dr. Rao " "dr. rao" = true
      ∧ DoctorDashboard.isMine asciiLower { role := "doctor", name := "dr. rao" }
          paddedAppointment = some false := by
  decide

/-- C12, amended: Directory Matching compares the display names as they are,
ignoring letter case and removing no whitespace. For a record whose
patientName is the text `n`, the patient filters match exactly when `n` and
the actor's name are equal ignoring letter case; for a record whose doctorName
is the text `n`, the doctor filter matches exactly when `n` is equal, ignoring
letter case, to the actor's name or to the demo name "Dr. Mehta". When neither
name has leading or trailing whitespace the patient match is the trimmed
comparison of the specification. -/
theorem directoryMatching_untrimmed (lower : String → String) (user : User) (x : Obj)
    (n : String) :
    (Obj.getProp x "patientName" = Val.str n →
        PatientDashboard.isMine lower user x
          = some (decide (eqIgnoreCase lower n user.name)))
      ∧ (Obj.getProp x "doctorName" = Val.str n → lower "Dr. Mehta" = "dr. mehta" →
          DoctorDashboard.isMine lower user x
            = some (decide (eqIgnoreCase lower n user.name ∨ eqIgnoreCase lower n "Dr. Mehta")))
      ∧ (Obj.getProp x "patientName" = Val.str n → trimName n = n →
          trimName user.name = user.name →
            PatientDashboard.isMine lower user x = some (specMatches lower n user.name)) := by
  have hp : Obj.getProp x "patientName" = Val.str n →
      PatientDashboard.isMine lower user x
        = some (decide (eqIgnoreCase lower n user.name)) := by
    intro h
    rw [patient_isMine_eq lower user x n h, h]
    rfl
  refine ⟨hp, ?_, ?_⟩
  · intro h hdemo
    rw [doctor_isMine_eq lower user x n hdemo h, h]
    simp [nameIs]
  · intro h hn hu
    rw [hp h]
    unfold specMatches
    rw [hn, hu]

/-- C12, amended, for the patient "rohit": the appointment booked under
"Rohit" matches, as the trimmed comparison also says; and for the doctor
"dr. rao" the appointment for "Dr. Rao" matches. -/
theorem directoryMatching_untrimmed_witness :
    PatientDashboard.isMine asciiLower { role := "patient", name := "rohit" }
        rohitAppointment = some true
      ∧ specMatches asciiLower "Rohit" "rohit" = true
      ∧ DoctorDashboard.isMine asciiLower { role := "doctor", name := "dr. rao" }
          rohitAppointment = some true := by
  have h := directoryMatching_untrimmed asciiLower { role := "patient", name := "rohit" }
    rohitAppointment "Rohit"
  have hd := (directoryMatching_untrimmed asciiLower { role := "doctor", name := "dr. rao" }
    rohitAppointment "Dr. Rao").2.1 (by decide) (by decide)
  have hs := h.2.2 (by decide) (by decide) (by decide)
  have hp := h.1 (by decide)
  have hp' : PatientDashboard.isMine asciiLower { role := "patient", name := "rohit" }
      rohitAppointment = some true := by rw [hp]; decide
  refine ⟨hp', ?_, ?_⟩
  · exact (Option.some.inj (hs.symm.trans hp'))
  · rw [hd]; decide

end CSK
